import Mathlib

/-!
Verification of the document-analysis response pipeline of the Qscan
repository: input validators, endpoint normalization, the error
translator, the result extractors, and the submit/poll protocol of
`analyzeDocument`.  Each definition shallowly embeds the corresponding
TypeScript function; JavaScript dynamic behaviours that the functions
rely on (falsy defaulting with `||`, sparse array extension on
out-of-bounds index assignment, `try`/`catch`) are made explicit.
-/

namespace Qscan

/-! ### Input validators (`azure-utils`) -/

/-- The fixed MIME allow-list of `validateFileType`. -/
def supportedTypes : List String :=
  ["application/pdf", "image/jpeg", "image/jpg", "image/png"]

/-- `validateFileType(fileType)`: membership in the fixed allow-list. -/
def validateFileType (fileType : String) : Bool :=
  supportedTypes.contains fileType

/-- A character matched by the regex class `[0-9a-fA-F]`. -/
def isHexChar (c : Char) : Bool :=
  ('0' ≤ c && c ≤ '9') || ('a' ≤ c && c ≤ 'f') || ('A' ≤ c && c ≤ 'F')

/-- The test of the regex `[0-9a-fA-F]` repeated exactly 32 times and
anchored at both ends: length 32 and every character hexadecimal. -/
def apiKeyRegexTest (s : String) : Bool :=
  s.data.length == 32 && s.data.all isHexChar

/-- `validateApiKey(apiKey)`: the `!apiKey` falsy guard (empty string)
followed by the anchored 32-hex-character regex test. -/
def validateApiKey (apiKey : String) : Bool :=
  if apiKey = "" then false else apiKeyRegexTest apiKey

/-- The spec-side reading of `^[0-9a-fA-F]{32}$`: the string has exactly
32 characters, every one of them hexadecimal (case-insensitive). -/
def matchesApiKeyPattern (s : String) : Prop :=
  s.data.length = 32 ∧ ∀ c ∈ s.data, isHexChar c = true

instance (s : String) : Decidable (matchesApiKeyPattern s) := by
  unfold matchesApiKeyPattern; infer_instance

/-! ### Endpoint normalizer (`normalizeAzureEndpoint`) -/

/-- Whether `pat` is an initial segment of `l`. -/
def leadingMatch : List Char → List Char → Bool
  | [], _ => true
  | _ :: _, [] => false
  | a :: as, b :: bs => a == b && leadingMatch as bs

/-- Whether `sub` occurs contiguously inside `l`. -/
def containsSub (sub : List Char) : List Char → Bool
  | [] => leadingMatch sub []
  | c :: rest => leadingMatch sub (c :: rest) || containsSub sub rest

/-- Substring test, used for the `hostname.includes(...)` check. -/
def containsSubstr (s sub : String) : Bool :=
  containsSub sub.data s.data

/-- Splits a character list at the first occurrence of "://", returning
the part before and the part after, or `none` when absent. -/
def splitScheme : List Char → Option (List Char × List Char)
  | ':' :: '/' :: '/' :: rest => some ([], rest)
  | c :: rest =>
    match splitScheme rest with
    | some (pre, post) => some (c :: pre, post)
    | none => none
  | [] => none

/-- Modelled from the spec: the platform URL parser invoked by
`new URL(endpoint)` is not part of this repository; following the spec's
"parseable absolute URL", a string parses iff it has a nonempty
alphabetic scheme followed by "://" and a nonempty remainder. -/
def urlParses (s : String) : Bool :=
  match splitScheme s.data with
  | some (scheme, rest) =>
    !scheme.isEmpty && scheme.all Char.isAlpha && !rest.isEmpty
  | none => false

/-- Modelled from the spec: `url.hostname` of the platform URL object —
the part after "://", up to the first path separator, with any port
suffix removed. -/
def hostnameOf (s : String) : String :=
  match splitScheme s.data with
  | some (_, rest) =>
    ⟨(rest.takeWhile (fun c => c ≠ '/')).takeWhile (fun c => c ≠ ':')⟩
  | none => ""

def noEndpointMsg : String := "Azure エンドポイントが指定されていません"

def invalidEndpointMsg : String := "無効なAzureエンドポイントURLです"

def nonAzureDomainWarning : String :=
  "エンドポイントが標準的なAzure Cognitive Servicesのドメインではありません"

/-- Result of `normalizeAzureEndpoint`: the returned string or thrown
error, together with any `console.warn` diagnostics emitted. -/
structure NormalizeOutcome where
  result : Except String String
  warnings : List String

/-- `endpoint.endsWith('/')`: the last character is a slash. -/
def jsEndsWithSlash (s : String) : Bool :=
  match s.data.getLast? with
  | some c => c == '/'
  | none => false

/-- `endpoint.slice(0, -1)` applied when a trailing slash is present:
removes exactly the final character, otherwise leaves the string
unchanged. -/
def stripTrailingSlash (s : String) : String :=
  if jsEndsWithSlash s then ⟨s.data.dropLast⟩ else s

/-- `normalizeAzureEndpoint(endpoint)`: empty-string guard, URL parse
(throwing on failure), non-fatal domain warning, and removal of exactly
one trailing slash. -/
def normalizeAzureEndpoint (endpoint : String) : NormalizeOutcome :=
  if endpoint = "" then ⟨Except.error noEndpointMsg, []⟩
  else if urlParses endpoint then
    ⟨Except.ok (stripTrailingSlash endpoint),
     if containsSubstr (hostnameOf endpoint) "cognitiveservices.azure.com" then []
     else [nonAzureDomainWarning]⟩
  else ⟨Except.error invalidEndpointMsg, []⟩


/-! ### Error translator (`extractAzureErrorInfo`) -/

/-- The `error` field of a JSON response body, as `extractAzureErrorInfo`
inspects it: either a string, or an object.  Object field values are
recorded as the strings their template-literal coercion produces; the
`serializable` flag records whether `JSON.stringify` succeeds on the
object (it throws on circular structures, exercising the `catch`). -/
inductive ErrVal where
  | str (s : String)
  | obj (fields : List (String × String)) (serializable : Bool)
deriving DecidableEq

/-- `JSON.stringify` of a flat serializable object. -/
def stringifyObj (fields : List (String × String)) : String :=
  "\x7b" ++
    String.intercalate ","
      (fields.map (fun p => "\"" ++ p.1 ++ "\":\"" ++ p.2 ++ "\"")) ++
    "\x7d"

/-- The pieces of the fetch `Response` that `extractAzureErrorInfo`
reads: HTTP status code and status text. -/
structure HttpResponse where
  status : Nat
  statusText : String
deriving DecidableEq

def authFailMsg : String := "Azure APIの認証に失敗しました。APIキーを確認してください。"

def forbiddenMsg : String := "Azure APIへのアクセスが拒否されました。APIキーの権限を確認してください。"

def notFoundMsg : String := "Azure APIのエンドポイントが見つかりません。エンドポイントURLを確認してください。"

def rateLimitMsg : String := "Azure APIのレート制限を超えました。しばらく待ってから再試行してください。"

/-- `extractAzureErrorInfo(response, responseBody)`.  `errField` is
`responseBody.error`: `none` when absent; a falsy value (the empty
string) falls through to the status fallback exactly as in the source.
The `catch` branch (status-only message) is reached when
`JSON.stringify` throws on a non-serializable error object. -/
def extractAzureErrorInfo (response : HttpResponse) (errField : Option ErrVal) : String :=
  if response.status = 401 then authFailMsg
  else if response.status = 403 then forbiddenMsg
  else if response.status = 404 then notFoundMsg
  else if response.status = 429 then rateLimitMsg
  else
    match errField with
    | some (ErrVal.obj fields ser) =>
      match fields.lookup "code", fields.lookup "message" with
      | some c, some m => "Azure APIエラー (" ++ c ++ "): " ++ m
      | some _, none =>
        if ser then "Azure APIエラー: " ++ stringifyObj fields
        else "Azure APIエラー (" ++ toString response.status ++ ")"
      | none, _ =>
        if ser then "Azure APIエラー: " ++ stringifyObj fields
        else "Azure APIエラー (" ++ toString response.status ++ ")"
    | some (ErrVal.str s) =>
      if s = "" then
        "Azure APIエラー (" ++ toString response.status ++ "): " ++ response.statusText
      else "Azure APIエラー: " ++ s
    | none =>
      "Azure APIエラー (" ++ toString response.status ++ "): " ++ response.statusText

/-- The HTTP statuses with fixed messages, checked before the body. -/
def specialStatuses : List Nat := [401, 403, 404, 429]

/-! ### Analysis result data model

Typed embedding of the nested analysis payload that the extractors read.
Optional fields model properties that may be absent in the JSON;
`analyzeResult?.pages || []` style defaulting is made explicit in the
accessors. -/

structure Line where
  content : String
  boundingBox : Option (List Nat)
deriving DecidableEq

structure Page where
  pageNumber : Nat
  width : Option Nat
  height : Option Nat
  unit : Option String
  lines : List Line
deriving DecidableEq

structure Cell where
  rowIndex : Nat
  columnIndex : Nat
  rowSpan : Option Nat
  columnSpan : Option Nat
  content : Option String
  boundingBox : Option (List Nat)
deriving DecidableEq

structure Table where
  rowCount : Option Nat
  columnCount : Option Nat
  cells : List Cell
deriving DecidableEq

/-- A key-value pair, recording the observables the extractors read:
`pair.key?.content` and `pair.value?.content` (`none` when the
sub-object or its content is absent). -/
structure KeyValuePair where
  key : Option String
  value : Option String
deriving DecidableEq

structure AnalyzeResult where
  pages : List Page
  tables : List Table
  keyValuePairs : List KeyValuePair
deriving DecidableEq

/-- The polled status body; `analyzeResult` may be absent. -/
structure AnalysisResponse where
  analyzeResult : Option AnalyzeResult
deriving DecidableEq

/-- `analyzeResult?.pages || []`. -/
def pagesOf (r : AnalysisResponse) : List Page :=
  match r.analyzeResult with
  | some a => a.pages
  | none => []

/-- `analyzeResult?.tables || []`. -/
def tablesOf (r : AnalysisResponse) : List Table :=
  match r.analyzeResult with
  | some a => a.tables
  | none => []

/-- `analyzeResult?.keyValuePairs || []`. -/
def kvsOf (r : AnalysisResponse) : List KeyValuePair :=
  match r.analyzeResult with
  | some a => a.keyValuePairs
  | none => []

/-- JavaScript `x || d` for an optional string `x`: absent or empty
(falsy) yields the default. -/
def jsOrString (o : Option String) (d : String) : String :=
  match o with
  | some s => if s = "" then d else s
  | none => d

/-- JavaScript `x || d` for an optional number `x`: absent or zero
(falsy) yields the default. -/
def jsOrNat (o : Option Nat) (d : Nat) : Nat :=
  match o with
  | some n => if n = 0 then d else n
  | none => d

/-- `cell.content as string || ''`. -/
def cellContent (c : Cell) : String :=
  jsOrString c.content ""

/-- `table.rowCount as number || 0`. -/
def rowCountOf (t : Table) : Nat :=
  jsOrNat t.rowCount 0

/-- `table.columnCount as number || 0`. -/
def colCountOf (t : Table) : Nat :=
  jsOrNat t.columnCount 0

/-! ### Text extraction (`extractTextFromAnalysisResult`) -/

/-- One page's contribution: delimiter line, each line's content, blank
line. -/
def pageText (p : Page) : String :=
  "===== ページ " ++ toString p.pageNumber ++ " =====\n\n" ++
    String.join (p.lines.map (fun l => l.content ++ "\n")) ++ "\n"

/-- JavaScript index assignment `row[j] = v` on an array: in bounds it
replaces; past the end it extends the array to length `j + 1`, filling
the gap with holes that `join` renders as the empty string. -/
def jsSet (row : List String) (j : Nat) (v : String) : List String :=
  if j < row.length then row.set j v
  else row ++ List.replicate (j - row.length) "" ++ [v]

/-- `tableData[rowIndex][columnIndex] = content`: reading
`tableData[rowIndex]` off the end yields `undefined`, and assigning a
property of `undefined` throws — modelled as `none`. -/
def writeCell (g : List (List String)) (c : Cell) : Option (List (List String)) :=
  match g.get? c.rowIndex with
  | some row => some (g.set c.rowIndex (jsSet row c.columnIndex (cellContent c)))
  | none => none

/-- The dense-grid reconstruction: a `rowCount × columnCount` grid of
empty strings, then each sparse cell written in list order. -/
def buildGrid (t : Table) : Option (List (List String)) :=
  t.cells.foldlM writeCell
    (List.replicate (rowCountOf t) (List.replicate (colCountOf t) ""))

/-- `row.join(' | ') + '\n'` for each grid row. -/
def renderGrid (g : List (List String)) : String :=
  String.join (g.map (fun row => String.intercalate " | " row ++ "\n"))

/-- One table's contribution: numbered header, rendered grid, blank
line; `none` when the grid reconstruction throws. -/
def tableText (i : Nat) (t : Table) : Option String :=
  (buildGrid t).map (fun g =>
    "テーブル " ++ toString (i + 1) ++ ":\n" ++ renderGrid g ++ "\n")

/-- The indexed `for` loop over tables; fails as soon as one table
throws. -/
def tablesTextList : Nat → List Table → Option (List String)
  | _, [] => some []
  | i, t :: ts =>
    match tableText i t, tablesTextList (i + 1) ts with
    | some s, some rest => some (s :: rest)
    | _, _ => none

/-- The table section: emitted only when at least one table exists. -/
def tablesSection (tables : List Table) : Option String :=
  match tables with
  | [] => some ""
  | _ :: _ =>
    (tablesTextList 0 tables).map
      (fun parts => "===== テーブル =====\n\n" ++ String.join parts)

/-- One key-value line: `key: value` with falsy key defaulting to the
placeholder label and falsy value to the empty string. -/
def kvLine (p : KeyValuePair) : String :=
  jsOrString p.key "不明なフィールド" ++ ": " ++ jsOrString p.value "" ++ "\n"

/-- The form-field section: emitted only when pairs exist. -/
def kvSection (kvs : List KeyValuePair) : String :=
  match kvs with
  | [] => ""
  | _ :: _ =>
    "===== フォームフィールド =====\n\n" ++ String.join (kvs.map kvLine) ++ "\n"

/-- JavaScript `String.prototype.trim`: removes leading and trailing
whitespace. -/
def jsTrim (s : String) : String :=
  ⟨((s.data.dropWhile Char.isWhitespace).reverse.dropWhile Char.isWhitespace).reverse⟩

/-- The `try` body of `extractTextFromAnalysisResult`: pages, tables,
key-value pairs, trailing whitespace trimmed; `none` when the body
throws (only the grid reconstruction can). -/
def extractTextCore (r : AnalysisResponse) : Option String :=
  (tablesSection (tablesOf r)).map (fun tsec =>
    jsTrim (String.join ((pagesOf r).map pageText) ++ tsec ++ kvSection (kvsOf r)))

def fallbackText : String := "結果からテキストを抽出できませんでした"

/-- `extractTextFromAnalysisResult(result)`: the `catch` converts any
internal error into the fixed fallback string. -/
def extractTextFromAnalysisResult (r : AnalysisResponse) : String :=
  match extractTextCore r with
  | some s => s
  | none => fallbackText

/-! ### Structured extraction (`extractStructuredData`) -/

structure SPage where
  pageNumber : Nat
  width : Option Nat
  height : Option Nat
  unit : Option String
  lines : List Line
deriving DecidableEq

structure SCell where
  rowIndex : Nat
  columnIndex : Nat
  rowSpan : Nat
  columnSpan : Nat
  content : Option String
  boundingBox : Option (List Nat)
deriving DecidableEq

structure STable where
  rowCount : Option Nat
  columnCount : Option Nat
  cells : List SCell
deriving DecidableEq

structure SKeyValue where
  key : String
  value : String
deriving DecidableEq

structure StructuredData where
  pages : List SPage
  tables : List STable
  keyValuePairs : List SKeyValue
deriving DecidableEq

def structuredPage (p : Page) : SPage :=
  ⟨p.pageNumber, p.width, p.height, p.unit,
   p.lines.map (fun l => ⟨l.content, l.boundingBox⟩)⟩

/-- `rowSpan: cell.rowSpan || 1`, `columnSpan: cell.columnSpan || 1`. -/
def structuredCell (c : Cell) : SCell :=
  ⟨c.rowIndex, c.columnIndex, jsOrNat c.rowSpan 1, jsOrNat c.columnSpan 1,
   c.content, c.boundingBox⟩

/-- `key: (pair.key)?.content || ''`, `value: (pair.value)?.content || ''`. -/
def structuredKV (p : KeyValuePair) : SKeyValue :=
  ⟨jsOrString p.key "", jsOrString p.value ""⟩

/-- The `try` body of `extractStructuredData`: the 1:1 structural copy. -/
def extractStructuredDataCore (r : AnalysisResponse) : StructuredData :=
  ⟨(pagesOf r).map structuredPage,
   (tablesOf r).map (fun t => ⟨t.rowCount, t.columnCount, t.cells.map structuredCell⟩),
   (kvsOf r).map structuredKV⟩

/-- `extractStructuredData(analysisResult)`: the `catch` returns null
(`none`); in this typed embedding the body is total, so the catch branch
is unreachable. -/
def extractStructuredData (r : AnalysisResponse) : Option StructuredData :=
  some (extractStructuredDataCore r)

/-! ### Grid observation helpers and concrete inputs -/

/-- The entry of a reconstructed grid at row `i`, column `j` (`none` when
out of range). -/
def gridAt (g : List (List String)) (i j : Nat) : Option String :=
  match g.get? i with
  | some row => row.get? j
  | none => none

/-- The content of the last cell in list order writing position
`(i, j)`, or the empty string when no cell does — the last-write-wins
value. -/
def lastWriteWins (cells : List Cell) (i j : Nat) : String :=
  cells.foldl
    (fun acc c => if c.rowIndex = i ∧ c.columnIndex = j then cellContent c else acc) ""

/-- The spec's table example: rowCount 2, columnCount 2, cells
`[(0,0,"A"), (1,1,"B")]`. -/
def exTable : Table :=
  ⟨some 2, some 2,
   [⟨0, 0, none, none, some "A", none⟩, ⟨1, 1, none, none, some "B", none⟩]⟩

/-- A document containing only the example table. -/
def exTableDoc : AnalysisResponse :=
  ⟨some ⟨[], [exTable], []⟩⟩

/-- A 1×1 table with a cell whose rowIndex (5) is outside the grid. -/
def badRowTable : Table :=
  ⟨some 1, some 1, [⟨5, 0, none, none, some "X", none⟩]⟩

/-- A document containing only the out-of-row-bounds table. -/
def badRowDoc : AnalysisResponse :=
  ⟨some ⟨[], [badRowTable], []⟩⟩

/-- A cell at (0, 3), outside a 1-column grid. -/
def wideCell : Cell := ⟨0, 3, none, none, some "Y", none⟩

/-- A 1×1 table with a cell whose columnIndex (3) exceeds columnCount. -/
def wideColTable : Table :=
  ⟨some 1, some 1, [wideCell]⟩

/-- A document with a single key-value pair whose key and value are both
absent. -/
def kvDoc : AnalysisResponse :=
  ⟨some ⟨[], [], [⟨none, none⟩]⟩⟩

/-! ### The analysis client (`analyzeDocument`)

The transport is abstracted: the submit POST's response and the
sequence of poll GET responses are inputs, and the run is observed
through its outcome together with a trace of events — each network
request, each fixed delay, and the text-extraction call. -/

/-- Observable events of one `analyzeDocument` run. -/
inductive Event where
  | submit
  | delay
  | poll (attempt : Nat)
  | extract
deriving DecidableEq

/-- A poll GET's response: a non-ok HTTP response with its translated
error body, or an ok response whose JSON body carries `status` (the
payload is read when the status is terminal "succeeded"; `errorsText`
models `JSON.stringify(statusResult.errors)` for "failed"). -/
inductive PollResponse where
  | httpError (status : Nat) (statusText : String) (errBody : Option ErrVal)
  | status (s : String) (payload : AnalysisResponse) (errorsText : String)

/-- The submit POST's response: a non-ok HTTP response with its error
body, or an ok response with its optional Operation-Location header. -/
inductive SubmitResponse where
  | httpError (status : Nat) (statusText : String) (errBody : Option ErrVal)
  | ok (operationLocation : Option String)

/-- How the polling `while` loop ends. -/
inductive PollExit where
  | succeeded (payload : AnalysisResponse)
  | threw (message : String)
  | exhausted

def maxAttempts : Nat := 10

/-- One loop iteration's events: the fixed delay, then the GET. -/
def pollPair (a : Nat) : List Event :=
  [Event.delay, Event.poll a]

def analysisFailedMsgFor (errorsText : String) : String :=
  "分析に失敗しました: " ++ errorsText

/-- The polling `while` loop of `analyzeDocument`: `attempts` counts
completed attempts, `fuel` is `maxAttempts - attempts`.  Each iteration
delays, issues attempt `attempts + 1`, and either terminates (succeeded,
thrown translated error, thrown analysis failure) or continues. -/
def pollLoop (resp : Nat → PollResponse) : Nat → Nat → PollExit × List Event
  | _, 0 => (PollExit.exhausted, [])
  | attempts, fuel + 1 =>
    let a := attempts + 1
    match resp a with
    | PollResponse.httpError st stx body =>
      (PollExit.threw (extractAzureErrorInfo ⟨st, stx⟩ body), pollPair a)
    | PollResponse.status s payload errs =>
      if s = "succeeded" then (PollExit.succeeded payload, pollPair a)
      else if s = "failed" then (PollExit.threw (analysisFailedMsgFor errs), pollPair a)
      else
        let rest := pollLoop resp a fuel
        (rest.1, pollPair a ++ rest.2)

/-- The result of `analyzeDocument`: the success object (extracted text
plus structured data) or the humanized error message of the caught
exception. -/
inductive AnalyzeOutcome where
  | ok (content : String) (structured : Option StructuredData)
  | err (message : String)

def unsupportedFileTypeMsg : String := "サポートされていないファイル形式です"

def invalidApiKeyMsg : String := "無効なAPIキーです"

def missingOpLocMsg : String := "Operation-Locationヘッダーが見つかりません"

def timeoutMsg : String := "タイムアウト: ドキュメント分析の完了を待機できませんでした"

/-- `analyzeDocument(fileBase64, fileName, fileType, apiKey, endpoint,
modelId)` with the transport abstracted: validation guards, endpoint
normalization, submission, Operation-Location check, the bounded polling
loop, then text extraction and structured extraction on success.
`modelId` only shapes the request URL and `fileBase64`/`fileName` only
the request body, so they do not appear. -/
def analyzeDocument (fileType apiKey endpoint : String)
    (submit : SubmitResponse) (resp : Nat → PollResponse) :
    AnalyzeOutcome × List Event :=
  if validateFileType fileType = false then
    (AnalyzeOutcome.err unsupportedFileTypeMsg, [])
  else if validateApiKey apiKey = false then
    (AnalyzeOutcome.err invalidApiKeyMsg, [])
  else
    match (normalizeAzureEndpoint endpoint).result with
    | Except.error e => (AnalyzeOutcome.err e, [])
    | Except.ok _ =>
      match submit with
      | SubmitResponse.httpError st stx body =>
        (AnalyzeOutcome.err (extractAzureErrorInfo ⟨st, stx⟩ body), [Event.submit])
      | SubmitResponse.ok none =>
        (AnalyzeOutcome.err missingOpLocMsg, [Event.submit])
      | SubmitResponse.ok (some _) =>
        match pollLoop resp 0 maxAttempts with
        | (PollExit.succeeded payload, evs) =>
          (AnalyzeOutcome.ok (extractTextFromAnalysisResult payload)
             (extractStructuredData payload),
           Event.submit :: evs ++ [Event.extract])
        | (PollExit.threw msg, evs) =>
          (AnalyzeOutcome.err msg, Event.submit :: evs)
        | (PollExit.exhausted, evs) =>
          (AnalyzeOutcome.err timeoutMsg, Event.submit :: evs)

/-- The event list of `n` completed poll iterations starting after
`a` attempts: delay, poll `a+1`, delay, poll `a+2`, …. -/
def pollTraceFrom (a : Nat) : Nat → List Event
  | 0 => []
  | k + 1 => pollPair (a + 1) ++ pollTraceFrom (a + 1) k

/-- A non-terminal ok poll response: its status is neither "succeeded"
nor "failed", so the loop continues. -/
def isPending (r : PollResponse) : Prop :=
  ∃ s payload errs, r = PollResponse.status s payload errs ∧
    s ≠ "succeeded" ∧ s ≠ "failed"

def countPolls (evs : List Event) : Nat :=
  (evs.filter (fun e => match e with | Event.poll _ => true | _ => false)).length

def countDelays (evs : List Event) : Nat :=
  (evs.filter (fun e => match e with | Event.delay => true | _ => false)).length

def countExtracts (evs : List Event) : Nat :=
  (evs.filter (fun e => match e with | Event.extract => true | _ => false)).length

/-- The empty analysis payload. -/
def emptyDoc : AnalysisResponse := ⟨none⟩

/-- The spec's polling example: attempts 1-9 answer "running", attempt
10 answers "succeeded". -/
def respEx (i : Nat) : PollResponse :=
  if i ≤ 9 then PollResponse.status "running" emptyDoc ""
  else PollResponse.status "succeeded" emptyDoc ""

/-- An all-"running" response sequence (never terminal). -/
def respRunning (_ : Nat) : PollResponse :=
  PollResponse.status "running" emptyDoc ""

/-- A 32-hex-character API key used in concrete runs. -/
def exApiKey : String := "0123456789abcdef0123456789ABCDEF"

/-! ## Theorems -/

/-- Claim C8: `validateFileType(mime)` returns true iff mime is exactly
one of 'application/pdf', 'image/jpeg', 'image/jpg', 'image/png', and
false for every other string. -/
theorem C8_validateFileType_allowlist (mime : String) :
    validateFileType mime = true ↔
      (mime = "application/pdf" ∨ mime = "image/jpeg" ∨
       mime = "image/jpg" ∨ mime = "image/png") := by
  simp only [validateFileType, supportedTypes, List.contains, List.elem_iff,
    List.mem_cons, List.not_mem_nil, or_false]

/-- Claim C7: `validateApiKey(key)` returns true iff key matches
`^[0-9a-fA-F]{32}$` — exactly 32 hexadecimal characters; the empty
string and every non-hex or wrong-length string return false. -/
theorem C7_validateApiKey_hex32 (key : String) :
    validateApiKey key = true ↔ matchesApiKeyPattern key := by
  by_cases hk : key = ""
  · subst hk
    constructor
    · intro h
      simp [validateApiKey] at h
    · intro h
      exact absurd h.1 (by decide)
  · unfold validateApiKey apiKeyRegexTest matchesApiKeyPattern
    simp only [hk, if_false, Bool.and_eq_true, beq_iff_eq, List.all_eq_true]

/-- Claim C6: `normalizeAzureEndpoint` fails exactly when the input is
empty or not a parseable absolute URL; otherwise it returns the input
with exactly one trailing '/' removed when present and otherwise
unchanged; a non-matching host only emits a warning and never changes
the result or blocks. -/
theorem C6_normalizeAzureEndpoint (s : String) :
    ((∃ e, (normalizeAzureEndpoint s).result = Except.error e) ↔
      (s = "" ∨ urlParses s = false)) ∧
    (s ≠ "" → urlParses s = true →
      (normalizeAzureEndpoint s).result = Except.ok (stripTrailingSlash s)) ∧
    (jsEndsWithSlash s = true → stripTrailingSlash s ++ "/" = s) ∧
    (jsEndsWithSlash s = false → stripTrailingSlash s = s) ∧
    (∀ w ∈ (normalizeAzureEndpoint s).warnings, w = nonAzureDomainWarning) ∧
    ((normalizeAzureEndpoint s).warnings ≠ [] →
      ∃ v, (normalizeAzureEndpoint s).result = Except.ok v) := by
  have hslash1 : jsEndsWithSlash s = true → stripTrailingSlash s ++ "/" = s := by
    intro h
    apply String.ext
    rw [String.data_append]
    unfold stripTrailingSlash
    rw [if_pos h]
    show s.data.dropLast ++ ['/'] = s.data
    unfold jsEndsWithSlash at h
    cases hl : s.data.getLast? with
    | none =>
      rw [hl] at h
      cases h
    | some c =>
      rw [hl] at h
      have hc : c = '/' := by simpa using h
      obtain ⟨l2, hl2⟩ := List.getLast?_eq_some_iff.mp hl
      rw [hl2, hc]
      simp
  have hslash2 : jsEndsWithSlash s = false → stripTrailingSlash s = s := by
    intro h
    simp [stripTrailingSlash, h]
  by_cases hs : s = ""
  · subst hs
    refine ⟨?_, ?_, hslash1, hslash2, ?_, ?_⟩ <;> simp [normalizeAzureEndpoint]
  · by_cases hu : urlParses s = true
    · refine ⟨?_, ?_, hslash1, hslash2, ?_, ?_⟩
      · simp [normalizeAzureEndpoint, hs, hu]
      · intro _ _
        simp [normalizeAzureEndpoint, hs, hu]
      · intro w hw
        simp only [normalizeAzureEndpoint, hs, if_false, hu, if_true] at hw
        by_cases hc : containsSubstr (hostnameOf s) "cognitiveservices.azure.com" = true
        · simp [hc] at hw
        · simp [hc] at hw
          exact hw
      · intro _
        refine ⟨stripTrailingSlash s, ?_⟩
        simp [normalizeAzureEndpoint, hs, hu]
    · have hu2 : urlParses s = false := by
        simpa using hu
      refine ⟨?_, ?_, hslash1, hslash2, ?_, ?_⟩
      · simp [normalizeAzureEndpoint, hs, hu2]
      · intro _ h
        rw [h] at hu2
        cases hu2
      · simp [normalizeAzureEndpoint, hs, hu2]
      · simp [normalizeAzureEndpoint, hs, hu2]

/-- Claim C3: `extractAzureErrorInfo` is a deterministic priority chain —
401/403/404/429 map to fixed messages regardless of the body; otherwise
an object error with both code and message yields the code/message form;
else a string error is wrapped; else a present unstructured error is
stringified; else the status/statusText fallback; and an exception while
stringifying the body degrades to the status-only message. -/
theorem C3_extractAzureErrorInfo_priority :
    (∀ stx body, extractAzureErrorInfo ⟨401, stx⟩ body = authFailMsg) ∧
    (∀ stx body, extractAzureErrorInfo ⟨403, stx⟩ body = forbiddenMsg) ∧
    (∀ stx body, extractAzureErrorInfo ⟨404, stx⟩ body = notFoundMsg) ∧
    (∀ stx body, extractAzureErrorInfo ⟨429, stx⟩ body = rateLimitMsg) ∧
    (∀ st stx fields ser c m, st ∉ specialStatuses →
      fields.lookup "code" = some c → fields.lookup "message" = some m →
      extractAzureErrorInfo ⟨st, stx⟩ (some (ErrVal.obj fields ser)) =
        "Azure APIエラー (" ++ c ++ "): " ++ m) ∧
    (∀ st stx s, st ∉ specialStatuses → s ≠ "" →
      extractAzureErrorInfo ⟨st, stx⟩ (some (ErrVal.str s)) =
        "Azure APIエラー: " ++ s) ∧
    (∀ st stx fields, st ∉ specialStatuses →
      (fields.lookup "code" = none ∨ fields.lookup "message" = none) →
      extractAzureErrorInfo ⟨st, stx⟩ (some (ErrVal.obj fields true)) =
        "Azure APIエラー: " ++ stringifyObj fields) ∧
    (∀ st stx, st ∉ specialStatuses →
      extractAzureErrorInfo ⟨st, stx⟩ none =
        "Azure APIエラー (" ++ toString st ++ "): " ++ stx) ∧
    (∀ st stx, st ∉ specialStatuses →
      extractAzureErrorInfo ⟨st, stx⟩ (some (ErrVal.str "")) =
        "Azure APIエラー (" ++ toString st ++ "): " ++ stx) ∧
    (∀ st stx fields, st ∉ specialStatuses →
      (fields.lookup "code" = none ∨ fields.lookup "message" = none) →
      extractAzureErrorInfo ⟨st, stx⟩ (some (ErrVal.obj fields false)) =
        "Azure APIエラー (" ++ toString st ++ ")") := by
  have hspecial : ∀ st : Nat, st ∉ specialStatuses →
      st ≠ 401 ∧ st ≠ 403 ∧ st ≠ 404 ∧ st ≠ 429 := by
    intro st h
    simp only [specialStatuses, List.mem_cons, List.not_mem_nil, or_false,
      not_or] at h
    exact h
  refine ⟨fun stx body => rfl, fun stx body => rfl, fun stx body => rfl,
    fun stx body => rfl, ?_, ?_, ?_, ?_, ?_, ?_⟩
  · intro st stx fields ser c m h hc hm
    obtain ⟨h1, h2, h3, h4⟩ := hspecial st h
    simp [extractAzureErrorInfo, h1, h2, h3, h4, hc, hm]
  · intro st stx s h hs
    obtain ⟨h1, h2, h3, h4⟩ := hspecial st h
    simp [extractAzureErrorInfo, h1, h2, h3, h4, hs]
  · intro st stx fields h hmiss
    obtain ⟨h1, h2, h3, h4⟩ := hspecial st h
    rcases hmiss with hc | hm
    · simp [extractAzureErrorInfo, h1, h2, h3, h4, hc]
    · cases hlc : fields.lookup "code" <;>
        simp [extractAzureErrorInfo, h1, h2, h3, h4, hlc, hm]
  · intro st stx h
    obtain ⟨h1, h2, h3, h4⟩ := hspecial st h
    simp [extractAzureErrorInfo, h1, h2, h3, h4]
  · intro st stx h
    obtain ⟨h1, h2, h3, h4⟩ := hspecial st h
    simp [extractAzureErrorInfo, h1, h2, h3, h4]
  · intro st stx fields h hmiss
    obtain ⟨h1, h2, h3, h4⟩ := hspecial st h
    rcases hmiss with hc | hm
    · simp [extractAzureErrorInfo, h1, h2, h3, h4, hc]
    · cases hlc : fields.lookup "code" <;>
        simp [extractAzureErrorInfo, h1, h2, h3, h4, hlc, hm]

/-! ### Grid reconstruction lemmas -/

theorem length_jsSet (row : List String) (j : Nat) (v : String) :
    (jsSet row j v).length = max row.length (j + 1) := by
  unfold jsSet
  by_cases h : j < row.length
  · simp [h]
    omega
  · simp [h]
    omega

theorem jsSet_of_lt (row : List String) (j : Nat) (v : String) (h : j < row.length) :
    jsSet row j v = row.set j v := by
  simp [jsSet, h]

theorem writeCell_of_le (g : List (List String)) (c : Cell)
    (h : g.length ≤ c.rowIndex) : writeCell g c = none := by
  simp [writeCell, List.getElem?_eq_none h]

theorem writeCell_of_lt (g : List (List String)) (c : Cell)
    (h : c.rowIndex < g.length) :
    writeCell g c =
      some (g.set c.rowIndex
        (jsSet (g.get ⟨c.rowIndex, h⟩) c.columnIndex (cellContent c))) := by
  have hg : g[c.rowIndex]? = some (g.get ⟨c.rowIndex, h⟩) :=
    List.getElem?_eq_some_iff.mpr ⟨h, rfl⟩
  simp [writeCell, hg]

/-- Once some cell's rowIndex falls outside the grid, the whole fold
throws. -/
theorem foldlM_writeCell_none :
    ∀ (cells : List Cell) (g : List (List String)),
      (∃ c ∈ cells, g.length ≤ c.rowIndex) →
      cells.foldlM writeCell g = none := by
  intro cells
  induction cells with
  | nil =>
    rintro g ⟨c, hc, -⟩
    cases hc
  | cons c0 cs ih =>
    rintro g ⟨c, hc, hbad⟩
    by_cases h0 : g.length ≤ c0.rowIndex
    · rw [List.foldlM_cons, writeCell_of_le g c0 h0]
      rfl
    · push_neg at h0
      rw [List.foldlM_cons, writeCell_of_lt g c0 h0]
      show cs.foldlM writeCell _ = none
      apply ih
      rcases List.mem_cons.mp hc with rfl | hmem
      · omega
      · exact ⟨c, hmem, by simpa using hbad⟩

/-- When every cell's rowIndex is inside the grid, the fold succeeds and
preserves the number of rows. -/
theorem foldlM_writeCell_some :
    ∀ (cells : List Cell) (g : List (List String)),
      (∀ c ∈ cells, c.rowIndex < g.length) →
      ∃ g2, cells.foldlM writeCell g = some g2 ∧ g2.length = g.length := by
  intro cells
  induction cells with
  | nil =>
    intro g _
    exact ⟨g, rfl, rfl⟩
  | cons c0 cs ih =>
    intro g h
    have h0 : c0.rowIndex < g.length := h c0 (List.mem_cons_self c0 cs)
    obtain ⟨g2, hg2, hlen⟩ :=
      ih (g.set c0.rowIndex (jsSet (g.get ⟨c0.rowIndex, h0⟩) c0.columnIndex (cellContent c0)))
        (fun c hc => by
          rw [List.length_set]
          exact h c (List.mem_cons_of_mem c0 hc))
    refine ⟨g2, ?_, by rw [hlen, List.length_set]⟩
    rw [List.foldlM_cons, writeCell_of_lt g c0 h0]
    exact hg2

/-- Row lengths never shrink across the fold. -/
theorem foldlM_writeCell_mono :
    ∀ (cells : List Cell) (g g2 : List (List String)),
      cells.foldlM writeCell g = some g2 →
      ∀ i row, g.get? i = some row →
        ∃ row2, g2.get? i = some row2 ∧ row.length ≤ row2.length := by
  intro cells
  induction cells with
  | nil =>
    intro g g2 hfold i row hrow
    cases hfold
    exact ⟨row, hrow, Nat.le_refl _⟩
  | cons c0 cs ih =>
    intro g g2 hfold i row hrow
    by_cases h0 : c0.rowIndex < g.length
    · rw [List.foldlM_cons, writeCell_of_lt g c0 h0] at hfold
      have hfold2 : cs.foldlM writeCell
          (g.set c0.rowIndex (jsSet (g.get ⟨c0.rowIndex, h0⟩) c0.columnIndex (cellContent c0)))
          = some g2 := hfold
      by_cases hi : i = c0.rowIndex
      · have hrow0 : row = g.get ⟨c0.rowIndex, h0⟩ := by
          rw [hi, List.get?_eq_getElem?] at hrow
          obtain ⟨h1, h2⟩ := List.getElem?_eq_some_iff.mp hrow
          exact h2.symm
        have hset : (g.set c0.rowIndex (jsSet (g.get ⟨c0.rowIndex, h0⟩) c0.columnIndex (cellContent c0))).get? c0.rowIndex =
            some (jsSet (g.get ⟨c0.rowIndex, h0⟩) c0.columnIndex (cellContent c0)) := by
          rw [List.get?_eq_getElem?]
          exact List.getElem?_set_self (by simpa using h0)
        obtain ⟨row2, hrow2, hle⟩ := ih _ _ hfold2 c0.rowIndex _ hset
        refine ⟨row2, by rw [hi]; exact hrow2, ?_⟩
        rw [hrow0]
        calc (g.get ⟨c0.rowIndex, h0⟩).length
            ≤ (jsSet (g.get ⟨c0.rowIndex, h0⟩) c0.columnIndex (cellContent c0)).length := by
              rw [length_jsSet]; omega
          _ ≤ row2.length := hle
      · have hset : (g.set c0.rowIndex (jsSet (g.get ⟨c0.rowIndex, h0⟩) c0.columnIndex (cellContent c0))).get? i = some row := by
          rw [List.get?_eq_getElem?]
          rw [List.getElem?_set_ne (fun h => hi h.symm)]
          rw [← List.get?_eq_getElem?]
          exact hrow
        exact ih _ _ hfold2 i row hset
    · push_neg at h0
      rw [List.foldlM_cons, writeCell_of_le g c0 h0] at hfold
      cases hfold

/-- Processing a cell whose rowIndex is in bounds leaves its row at
least `columnIndex + 1` long in the final grid. -/
theorem foldlM_writeCell_extends :
    ∀ (cells : List Cell) (g g2 : List (List String)) (c : Cell),
      c ∈ cells → cells.foldlM writeCell g = some g2 →
      ∃ row2, g2.get? c.rowIndex = some row2 ∧ c.columnIndex + 1 ≤ row2.length := by
  intro cells
  induction cells with
  | nil =>
    intro g g2 c hc
    cases hc
  | cons c0 cs ih =>
    intro g g2 c hc hfold
    by_cases h0 : c0.rowIndex < g.length
    · rw [List.foldlM_cons, writeCell_of_lt g c0 h0] at hfold
      have hfold2 : cs.foldlM writeCell
          (g.set c0.rowIndex (jsSet (g.get ⟨c0.rowIndex, h0⟩) c0.columnIndex (cellContent c0)))
          = some g2 := hfold
      rcases List.mem_cons.mp hc with rfl | hmem
      · have hset : (g.set c.rowIndex (jsSet (g.get ⟨c.rowIndex, h0⟩) c.columnIndex (cellContent c))).get? c.rowIndex =
            some (jsSet (g.get ⟨c.rowIndex, h0⟩) c.columnIndex (cellContent c)) := by
          rw [List.get?_eq_getElem?]
          exact List.getElem?_set_self (by simpa using h0)
        obtain ⟨row2, hrow2, hle⟩ := foldlM_writeCell_mono cs _ _ hfold2 c.rowIndex _ hset
        refine ⟨row2, hrow2, ?_⟩
        have : c.columnIndex + 1 ≤ (jsSet (g.get ⟨c.rowIndex, h0⟩) c.columnIndex (cellContent c)).length := by
          rw [length_jsSet]; omega
        omega
      · exact ih _ _ c hmem hfold2
    · push_neg at h0
      rw [List.foldlM_cons, writeCell_of_le g c0 h0] at hfold
      cases hfold

/-- With every cell fully in bounds, the fold succeeds, keeps every row
at width `C`, and each entry carries the last write (seeded with the
initial entry). -/
theorem foldlM_writeCell_entries (C : Nat) :
    ∀ (cells : List Cell) (g : List (List String)),
      (∀ c ∈ cells, c.rowIndex < g.length ∧ c.columnIndex < C) →
      (∀ row ∈ g, row.length = C) →
      ∃ g2, cells.foldlM writeCell g = some g2 ∧
        g2.length = g.length ∧ (∀ row ∈ g2, row.length = C) ∧
        ∀ i j, gridAt g2 i j =
          cells.foldl
            (fun acc c =>
              if c.rowIndex = i ∧ c.columnIndex = j then some (cellContent c) else acc)
            (gridAt g i j) := by
  intro cells
  induction cells with
  | nil =>
    intro g _ hrows
    exact ⟨g, rfl, rfl, hrows, fun i j => rfl⟩
  | cons c0 cs ih =>
    intro g hcells hrows
    obtain ⟨h0, h0c⟩ := hcells c0 (List.mem_cons_self c0 cs)
    have hrow0mem : g.get ⟨c0.rowIndex, h0⟩ ∈ g := List.get_mem g c0.rowIndex h0
    have hrow0len : (g.get ⟨c0.rowIndex, h0⟩).length = C := hrows _ hrow0mem
    have hjs : jsSet (g.get ⟨c0.rowIndex, h0⟩) c0.columnIndex (cellContent c0) =
        (g.get ⟨c0.rowIndex, h0⟩).set c0.columnIndex (cellContent c0) :=
      jsSet_of_lt _ _ _ (by omega)
    set g1 := g.set c0.rowIndex
      ((g.get ⟨c0.rowIndex, h0⟩).set c0.columnIndex (cellContent c0)) with hg1
    have hg1len : g1.length = g.length := List.length_set g _ _
    have hg1rows : ∀ row ∈ g1, row.length = C := by
      intro row hrow
      rcases List.mem_or_eq_of_mem_set hrow with hmem | heq
      · exact hrows row hmem
      · rw [heq, List.length_set]
        exact hrow0len
    obtain ⟨g2, hfold, hlen, hrows2, hentries⟩ :=
      ih g1 (fun c hc => by
        rw [hg1len]
        exact hcells c (List.mem_cons_of_mem c0 hc)) hg1rows
    refine ⟨g2, ?_, by rw [hlen, hg1len], hrows2, ?_⟩
    · rw [List.foldlM_cons, writeCell_of_lt g c0 h0, hjs]
      exact hfold
    · intro i j
      have hstep : gridAt g1 i j =
          if c0.rowIndex = i ∧ c0.columnIndex = j then some (cellContent c0)
          else gridAt g i j := by
        by_cases hi : c0.rowIndex = i
        · subst hi
          have hg1i : g1[c0.rowIndex]? =
              some ((g.get ⟨c0.rowIndex, h0⟩).set c0.columnIndex (cellContent c0)) := by
            rw [hg1]
            exact List.getElem?_set_self (by simpa using h0)
          have hgi : g[c0.rowIndex]? = some (g.get ⟨c0.rowIndex, h0⟩) :=
            List.getElem?_eq_some_iff.mpr ⟨h0, rfl⟩
          by_cases hj : c0.columnIndex = j
          · subst hj
            have hrj : ((g.get ⟨c0.rowIndex, h0⟩).set c0.columnIndex (cellContent c0))[c0.columnIndex]? =
                some (cellContent c0) :=
              List.getElem?_set_self (by omega)
            simp [gridAt, hg1i]
            simpa using hrj
          · have hrj : ((g.get ⟨c0.rowIndex, h0⟩).set c0.columnIndex (cellContent c0))[j]? =
                (g.get ⟨c0.rowIndex, h0⟩)[j]? :=
              List.getElem?_set_ne hj
            simp [gridAt, hg1i, hgi, hj, hrj]
        · have hg1i : g1[i]? = g[i]? := by
            rw [hg1]
            exact List.getElem?_set_ne hi
          simp [gridAt, hg1i, hi]
      rw [List.foldl_cons, hentries i j, hstep]

/-- Pulling the last-write fold out of `some`. -/
theorem foldl_lastWrite_some (cells : List Cell) (i j : Nat) :
    ∀ s : String,
      cells.foldl
        (fun acc c =>
          if c.rowIndex = i ∧ c.columnIndex = j then some (cellContent c) else acc)
        (some s) =
      some (cells.foldl
        (fun acc c =>
          if c.rowIndex = i ∧ c.columnIndex = j then cellContent c else acc) s) := by
  induction cells with
  | nil => intro s; rfl
  | cons c cs ih =>
    intro s
    by_cases h : c.rowIndex = i ∧ c.columnIndex = j <;> simp [h, ih]

/-- As soon as one table's grid reconstruction throws, the indexed table
loop throws. -/
theorem tablesTextList_eq_none :
    ∀ (tables : List Table) (i : Nat),
      (∃ t ∈ tables, buildGrid t = none) →
      tablesTextList i tables = none := by
  intro tables
  induction tables with
  | nil =>
    rintro i ⟨t, ht, -⟩
    cases ht
  | cons t0 ts ih =>
    rintro i ⟨t, ht, hb⟩
    rcases List.mem_cons.mp ht with rfl | hmem
    · simp [tablesTextList, tableText, hb]
    · have htail : tablesTextList (i + 1) ts = none := ih (i + 1) ⟨t, hmem, hb⟩
      cases h0 : tableText i t0 <;> simp [tablesTextList, h0, htail]

/-- Claim C2: for every table, extractText builds a dense
rowCount × columnCount grid initialized to empty strings, writes each
sparse cell's content at (rowIndex, columnIndex) in cell-list order with
last-write-wins on duplicates, and renders each grid row joined by
' | ' with rows newline-separated; in particular the 2×2 example with
cells [(0,0,"A"), (1,1,"B")] renders as "A | \n | B". -/
theorem C2_extractText_tableGrid :
    (∀ t : Table,
      (∀ c ∈ t.cells, c.rowIndex < rowCountOf t ∧ c.columnIndex < colCountOf t) →
      ∃ g, buildGrid t = some g ∧ g.length = rowCountOf t ∧
        (∀ row ∈ g, row.length = colCountOf t) ∧
        ∀ i j, i < rowCountOf t → j < colCountOf t →
          gridAt g i j = some (lastWriteWins t.cells i j)) ∧
    buildGrid exTable = some [["A", ""], ["", "B"]] ∧
    renderGrid [["A", ""], ["", "B"]] = "A | \n | B\n" ∧
    extractTextFromAnalysisResult exTableDoc =
      "===== テーブル =====\n\nテーブル 1:\nA | \n | B" := by
  refine ⟨?_, by decide, by decide, by decide⟩
  intro t hinb
  obtain ⟨g2, hfold, hlen, hrows, hentries⟩ :=
    foldlM_writeCell_entries (colCountOf t) t.cells
      (List.replicate (rowCountOf t) (List.replicate (colCountOf t) ""))
      (fun c hc => by
        rw [List.length_replicate]
        exact hinb c hc)
      (fun row hrow => by
        rw [List.eq_of_mem_replicate hrow, List.length_replicate])
  refine ⟨g2, ?_, by rw [hlen, List.length_replicate], hrows, ?_⟩
  · rw [buildGrid]
    exact hfold
  · intro i j hi hj
    rw [hentries i j]
    have hinit : gridAt (List.replicate (rowCountOf t) (List.replicate (colCountOf t) "")) i j =
        some "" := by
      simp [gridAt, List.getElem?_replicate, hi, hj]
    rw [hinit, foldl_lastWrite_some]
    rfl

/-- Witness for C2: the general grid characterization instantiated at
the concrete example table, every hypothesis discharged. -/
theorem C2_extractText_tableGrid_witness :
    (∀ c ∈ exTable.cells,
      c.rowIndex < rowCountOf exTable ∧ c.columnIndex < colCountOf exTable) ∧
    ∃ g, buildGrid exTable = some g ∧ g.length = rowCountOf exTable ∧
      (∀ row ∈ g, row.length = colCountOf exTable) ∧
      ∀ i j, i < rowCountOf exTable → j < colCountOf exTable →
        gridAt g i j = some (lastWriteWins exTable.cells i j) :=
  ⟨by decide, C2_extractText_tableGrid.1 exTable (by decide)⟩

/-- Claim C9: a cell whose rowIndex is outside the grid makes the whole
text extraction return the fixed fallback string, while a cell whose
columnIndex is outside the grid does not abort — it extends the rendered
row beyond columnCount entries. -/
theorem C9_rowBound_abort_colBound_extend :
    (∀ r : AnalysisResponse,
      (∃ t ∈ tablesOf r, ∃ c ∈ t.cells, rowCountOf t ≤ c.rowIndex) →
      extractTextFromAnalysisResult r = fallbackText) ∧
    (∀ (t : Table) (c : Cell), c ∈ t.cells →
      (∀ c2 ∈ t.cells, c2.rowIndex < rowCountOf t) →
      colCountOf t ≤ c.columnIndex →
      ∃ g row, buildGrid t = some g ∧ g.get? c.rowIndex = some row ∧
        colCountOf t < row.length ∧ c.columnIndex + 1 ≤ row.length) := by
  constructor
  · rintro r ⟨t, ht, c, hc, hbad⟩
    have hgrid : buildGrid t = none := by
      rw [buildGrid]
      exact foldlM_writeCell_none t.cells _
        ⟨c, hc, by rw [List.length_replicate]; exact hbad⟩
    have hlist : tablesTextList 0 (tablesOf r) = none :=
      tablesTextList_eq_none (tablesOf r) 0 ⟨t, ht, hgrid⟩
    have hsec : tablesSection (tablesOf r) = none := by
      cases htab : tablesOf r with
      | nil =>
        rw [htab] at ht
        cases ht
      | cons t0 ts =>
        rw [htab] at hlist
        simp [tablesSection, hlist]
    have hcore : extractTextCore r = none := by
      simp [extractTextCore, hsec]
    simp [extractTextFromAnalysisResult, hcore]
  · intro t c hc hrows hcol
    obtain ⟨g2, hfold, hlen⟩ := foldlM_writeCell_some t.cells _
      (fun c2 hc2 => by
        rw [List.length_replicate]
        exact hrows c2 hc2)
    obtain ⟨row2, hrow2, hext⟩ := foldlM_writeCell_extends t.cells _ g2 c hc hfold
    refine ⟨g2, row2, ?_, hrow2, by omega, hext⟩
    rw [buildGrid]
    exact hfold

/-- Witness for C9: the out-of-row-bounds document falls back, and the
out-of-column-bounds table extends its row to 4 entries. -/
theorem C9_witness :
    extractTextFromAnalysisResult badRowDoc = fallbackText ∧
    ∃ g row, buildGrid wideColTable = some g ∧
      g.get? wideCell.rowIndex = some row ∧
      colCountOf wideColTable < row.length ∧ wideCell.columnIndex + 1 ≤ row.length :=
  ⟨C9_rowBound_abort_colBound_extend.1 badRowDoc (by decide),
   C9_rowBound_abort_colBound_extend.2 wideColTable wideCell (by decide)
     (by decide) (by decide)⟩

/-- Claim C4: when its body throws, extractTextFromAnalysisResult
returns the fixed fallback string instead of propagating, and
extractStructuredData returns null; neither extractor raises to its
caller (both are total functions of the input). -/
theorem C4_extraction_never_throws :
    (∀ r : AnalysisResponse, extractTextCore r = none →
      extractTextFromAnalysisResult r = fallbackText) ∧
    (∀ r : AnalysisResponse,
      extractStructuredData r = some (extractStructuredDataCore r)) := by
  constructor
  · intro r h
    simp [extractTextFromAnalysisResult, h]
  · intro r
    rfl

/-- Witness for C4: a document whose extraction body throws (grid row
out of bounds) yields the fallback string. -/
theorem C4_witness :
    extractTextCore badRowDoc = none ∧
    extractTextFromAnalysisResult badRowDoc = fallbackText :=
  ⟨by decide, C4_extraction_never_throws.1 badRowDoc (by decide)⟩

/-- Claim C10: on an absent or empty key the text extractor renders the
placeholder label while the structured extractor maps the key to the
empty string — they disagree; an absent or empty value renders as the
empty string in both. -/
theorem C10_kv_empty_key_disagreement :
    (∀ p : KeyValuePair, p.key = none ∨ p.key = some "" →
      kvLine p = "不明なフィールド: " ++ jsOrString p.value "" ++ "\n" ∧
      (structuredKV p).key = "" ∧
      jsOrString p.key "不明なフィールド" ≠ (structuredKV p).key) ∧
    (∀ p : KeyValuePair, p.value = none ∨ p.value = some "" →
      jsOrString p.value "" = "" ∧ (structuredKV p).value = "") ∧
    extractTextFromAnalysisResult kvDoc =
      "===== フォームフィールド =====\n\n不明なフィールド:" ∧
    (extractStructuredDataCore kvDoc).keyValuePairs = [⟨"", ""⟩] := by
  have hlit : "不明なフィールド" ++ ": " = "不明なフィールド: " := by decide
  refine ⟨?_, ?_, by decide, by decide⟩
  · intro p h
    have hkey : jsOrString p.key "不明なフィールド" = "不明なフィールド" := by
      rcases h with h | h <;> simp [jsOrString, h]
    have hskey : (structuredKV p).key = "" := by
      rcases h with h | h <;> simp [structuredKV, jsOrString, h]
    refine ⟨?_, hskey, ?_⟩
    · rw [kvLine, hkey, hlit]
    · rw [hkey, hskey]
      decide
  · intro p h
    rcases h with h | h <;> simp [structuredKV, jsOrString, h]

/-- Witness for C10: both clauses at the concrete all-absent pair. -/
theorem C10_witness :
    (kvLine ⟨none, none⟩ = "不明なフィールド: " ++ jsOrString (none : Option String) "" ++ "\n" ∧
      (structuredKV ⟨none, none⟩).key = "" ∧
      jsOrString (none : Option String) "不明なフィールド" ≠ (structuredKV ⟨none, none⟩).key) ∧
    (jsOrString (none : Option String) "" = "" ∧ (structuredKV ⟨none, none⟩).value = "") :=
  ⟨C10_kv_empty_key_disagreement.1 ⟨none, none⟩ (Or.inl rfl),
   C10_kv_empty_key_disagreement.2.1 ⟨none, none⟩ (Or.inl rfl)⟩

/-! ### Polling loop lemmas -/

theorem pollLoop_pending (resp : Nat → PollResponse) (attempts fuel : Nat)
    (h : isPending (resp (attempts + 1))) :
    pollLoop resp attempts (fuel + 1) =
      ((pollLoop resp (attempts + 1) fuel).1,
       pollPair (attempts + 1) ++ (pollLoop resp (attempts + 1) fuel).2) := by
  obtain ⟨s, payload, errs, heq, hs1, hs2⟩ := h
  simp [pollLoop, heq, hs1, hs2]

theorem pollLoop_succeeded_step (resp : Nat → PollResponse) (attempts fuel : Nat)
    (payload : AnalysisResponse) (errs : String)
    (h : resp (attempts + 1) = PollResponse.status "succeeded" payload errs) :
    pollLoop resp attempts (fuel + 1) =
      (PollExit.succeeded payload, pollPair (attempts + 1)) := by
  simp [pollLoop, h]

/-- If attempts `attempts+1 … attempts+k-1` are pending and attempt
`attempts+k` succeeds within the fuel, the loop stops there with the
succeeded payload and exactly `k` delay/poll iterations. -/
theorem pollLoop_first_succeeds :
    ∀ (k : Nat) (resp : Nat → PollResponse) (attempts fuel : Nat)
      (payload : AnalysisResponse) (errs : String),
      1 ≤ k → k ≤ fuel →
      (∀ i, 1 ≤ i → i < k → isPending (resp (attempts + i))) →
      resp (attempts + k) = PollResponse.status "succeeded" payload errs →
      pollLoop resp attempts fuel =
        (PollExit.succeeded payload, pollTraceFrom attempts k) := by
  intro k
  induction k with
  | zero =>
    intro _ _ _ _ _ h1 _ _ _
    omega
  | succ k ih =>
    intro resp attempts fuel payload errs h1 h2 hpending hsucc
    obtain ⟨fuel2, rfl⟩ : ∃ f2, fuel = f2 + 1 := ⟨fuel - 1, by omega⟩
    by_cases hk : k = 0
    · subst hk
      rw [pollLoop_succeeded_step resp attempts fuel2 payload errs (by simpa using hsucc)]
      simp [pollTraceFrom]
    · have hpend1 : isPending (resp (attempts + 1)) := hpending 1 (by omega) (by omega)
      rw [pollLoop_pending resp attempts fuel2 hpend1]
      have hrec := ih resp (attempts + 1) fuel2 payload errs (by omega) (by omega)
        (fun i hi1 hi2 => by
          have hidx : attempts + 1 + i = attempts + (i + 1) := by omega
          rw [hidx]
          exact hpending (i + 1) (by omega) (by omega))
        (by
          have hidx : attempts + 1 + k = attempts + (k + 1) := by omega
          rw [hidx]
          exact hsucc)
      rw [hrec]
      simp [pollTraceFrom]

/-- If every attempt within the fuel is pending, the loop exhausts its
fuel and the analysis times out. -/
theorem pollLoop_all_pending :
    ∀ (fuel : Nat) (resp : Nat → PollResponse) (attempts : Nat),
      (∀ i, 1 ≤ i → i ≤ fuel → isPending (resp (attempts + i))) →
      pollLoop resp attempts fuel = (PollExit.exhausted, pollTraceFrom attempts fuel) := by
  intro fuel
  induction fuel with
  | zero =>
    intro resp attempts _
    rfl
  | succ f ih =>
    intro resp attempts hp
    rw [pollLoop_pending resp attempts f (hp 1 (by omega) (by omega))]
    rw [ih resp (attempts + 1) (fun i hi1 hi2 => by
      have hidx : attempts + 1 + i = attempts + (i + 1) := by omega
      rw [hidx]
      exact hp (i + 1) (by omega) (by omega))]
    simp [pollTraceFrom]

/-- Whatever the responses, the loop's trace is a prefix-shaped
delay/poll alternation of at most `fuel` iterations. -/
theorem pollLoop_trace_shape :
    ∀ (fuel : Nat) (resp : Nat → PollResponse) (attempts : Nat),
      ∃ n, n ≤ fuel ∧ (pollLoop resp attempts fuel).2 = pollTraceFrom attempts n := by
  intro fuel
  induction fuel with
  | zero =>
    intro resp attempts
    exact ⟨0, Nat.le_refl 0, rfl⟩
  | succ f ih =>
    intro resp attempts
    cases h : resp (attempts + 1) with
    | httpError st stx body =>
      refine ⟨1, by omega, ?_⟩
      simp [pollLoop, h, pollTraceFrom]
    | status s payload errs =>
      by_cases hs : s = "succeeded"
      · subst hs
        refine ⟨1, by omega, ?_⟩
        simp [pollLoop, h, pollTraceFrom]
      · by_cases hf : s = "failed"
        · subst hf
          refine ⟨1, by omega, ?_⟩
          simp [pollLoop, h, hs, pollTraceFrom]
        · obtain ⟨n, hn, htr⟩ := ih resp (attempts + 1)
          refine ⟨n + 1, by omega, ?_⟩
          rw [pollLoop_pending resp attempts f ⟨s, payload, errs, h, hs, hf⟩]
          simp [pollTraceFrom, htr]

/-! ### Event counting lemmas -/

theorem countPolls_append (l1 l2 : List Event) :
    countPolls (l1 ++ l2) = countPolls l1 + countPolls l2 := by
  simp [countPolls, List.filter_append]

theorem countDelays_append (l1 l2 : List Event) :
    countDelays (l1 ++ l2) = countDelays l1 + countDelays l2 := by
  simp [countDelays, List.filter_append]

theorem countExtracts_append (l1 l2 : List Event) :
    countExtracts (l1 ++ l2) = countExtracts l1 + countExtracts l2 := by
  simp [countExtracts, List.filter_append]

theorem countPolls_pollTraceFrom : ∀ (n a : Nat), countPolls (pollTraceFrom a n) = n := by
  intro n
  induction n with
  | zero => intro a; rfl
  | succ k ih =>
    intro a
    rw [pollTraceFrom, countPolls_append, ih (a + 1)]
    show 1 + k = k + 1
    omega

theorem countDelays_pollTraceFrom : ∀ (n a : Nat), countDelays (pollTraceFrom a n) = n := by
  intro n
  induction n with
  | zero => intro a; rfl
  | succ k ih =>
    intro a
    rw [pollTraceFrom, countDelays_append, ih (a + 1)]
    show 1 + k = k + 1
    omega

theorem countExtracts_pollTraceFrom : ∀ (n a : Nat), countExtracts (pollTraceFrom a n) = 0 := by
  intro n
  induction n with
  | zero => intro a; rfl
  | succ k ih =>
    intro a
    rw [pollTraceFrom, countExtracts_append, ih (a + 1)]
    rfl

theorem countPolls_submit_cons (l : List Event) :
    countPolls (Event.submit :: l) = countPolls l := by
  simp [countPolls]

theorem countDelays_submit_cons (l : List Event) :
    countDelays (Event.submit :: l) = countDelays l := by
  simp [countDelays]

theorem countExtracts_submit_cons (l : List Event) :
    countExtracts (Event.submit :: l) = countExtracts l := by
  simp [countExtracts]

theorem countPolls_extract_single : countPolls [Event.extract] = 0 := rfl

theorem countDelays_extract_single : countDelays [Event.extract] = 0 := rfl

theorem countExtracts_extract_single : countExtracts [Event.extract] = 1 := rfl

/-- Claim C1: once validation and submission pass, `analyzeDocument`
performs at most 10 poll attempts, each preceded by exactly one fixed
delay (the trace is a delay/poll alternation); if the first terminal
"succeeded" arrives at attempt k ≤ 10, polling stops at attempt k and
text extraction runs exactly once; if all 10 attempts are non-terminal,
the call fails with the Timeout error and extraction never runs. -/
theorem C1_analyzeDocument_polling
    (fileType apiKey endpoint opLoc : String) (resp : Nat → PollResponse)
    (hft : validateFileType fileType = true)
    (hkey : validateApiKey apiKey = true)
    (hep : ∃ u, (normalizeAzureEndpoint endpoint).result = Except.ok u) :
    (∃ n, n ≤ maxAttempts ∧
      ((analyzeDocument fileType apiKey endpoint
          (SubmitResponse.ok (some opLoc)) resp).2 =
            Event.submit :: pollTraceFrom 0 n ∨
       (analyzeDocument fileType apiKey endpoint
          (SubmitResponse.ok (some opLoc)) resp).2 =
            Event.submit :: pollTraceFrom 0 n ++ [Event.extract]) ∧
      countPolls (analyzeDocument fileType apiKey endpoint
        (SubmitResponse.ok (some opLoc)) resp).2 = n ∧
      countDelays (analyzeDocument fileType apiKey endpoint
        (SubmitResponse.ok (some opLoc)) resp).2 = n) ∧
    (∀ (k : Nat) (payload : AnalysisResponse) (errs : String),
      1 ≤ k → k ≤ maxAttempts →
      (∀ i, 1 ≤ i → i < k → isPending (resp i)) →
      resp k = PollResponse.status "succeeded" payload errs →
      analyzeDocument fileType apiKey endpoint
          (SubmitResponse.ok (some opLoc)) resp =
        (AnalyzeOutcome.ok (extractTextFromAnalysisResult payload)
           (extractStructuredData payload),
         Event.submit :: pollTraceFrom 0 k ++ [Event.extract]) ∧
      countPolls (analyzeDocument fileType apiKey endpoint
        (SubmitResponse.ok (some opLoc)) resp).2 = k ∧
      countExtracts (analyzeDocument fileType apiKey endpoint
        (SubmitResponse.ok (some opLoc)) resp).2 = 1) ∧
    ((∀ i, 1 ≤ i → i ≤ maxAttempts → isPending (resp i)) →
      analyzeDocument fileType apiKey endpoint
          (SubmitResponse.ok (some opLoc)) resp =
        (AnalyzeOutcome.err timeoutMsg, Event.submit :: pollTraceFrom 0 maxAttempts) ∧
      countExtracts (analyzeDocument fileType apiKey endpoint
        (SubmitResponse.ok (some opLoc)) resp).2 = 0) := by
  obtain ⟨u, hu⟩ := hep
  refine ⟨?_, ?_, ?_⟩
  · obtain ⟨n, hn, htr⟩ := pollLoop_trace_shape maxAttempts resp 0
    refine ⟨n, hn, ?_⟩
    rcases hpoll : pollLoop resp 0 maxAttempts with ⟨ex, evs⟩
    rw [hpoll] at htr
    simp only at htr
    subst htr
    cases ex <;>
      simp [analyzeDocument, hft, hkey, hu, hpoll, countPolls_append,
        countDelays_append, countPolls_submit_cons, countDelays_submit_cons,
        countPolls_pollTraceFrom, countDelays_pollTraceFrom,
        countPolls_extract_single, countDelays_extract_single]
  · intro k payload errs h1 h2 hpend hsucc
    have hploop := pollLoop_first_succeeds k resp 0 maxAttempts payload errs h1 h2
      (fun i hi1 hi2 => by
        rw [Nat.zero_add]
        exact hpend i hi1 hi2)
      (by
        rw [Nat.zero_add]
        exact hsucc)
    refine ⟨?_, ?_, ?_⟩ <;>
      simp [analyzeDocument, hft, hkey, hu, hploop, countPolls_append,
        countExtracts_append, countPolls_submit_cons, countExtracts_submit_cons,
        countPolls_pollTraceFrom, countExtracts_pollTraceFrom,
        countPolls_extract_single, countExtracts_extract_single]
  · intro hpend
    have hploop := pollLoop_all_pending maxAttempts resp 0
      (fun i hi1 hi2 => by
        rw [Nat.zero_add]
        exact hpend i hi1 hi2)
    refine ⟨?_, ?_⟩ <;>
      simp [analyzeDocument, hft, hkey, hu, hploop, countExtracts_append,
        countExtracts_submit_cons, countExtracts_pollTraceFrom,
        countExtracts_extract_single]

/-- Witness for C1: the spec's 9-"running"-then-"succeeded" sequence
stops at attempt 10 with one extraction, and the all-"running" sequence
times out with no extraction. -/
theorem C1_witness :
    (analyzeDocument "application/pdf" exApiKey
        "https://x.cognitiveservices.azure.com"
        (SubmitResponse.ok (some "https://op.example/result")) respEx =
      (AnalyzeOutcome.ok (extractTextFromAnalysisResult emptyDoc)
         (extractStructuredData emptyDoc),
       Event.submit :: pollTraceFrom 0 10 ++ [Event.extract]) ∧
     countPolls (analyzeDocument "application/pdf" exApiKey
        "https://x.cognitiveservices.azure.com"
        (SubmitResponse.ok (some "https://op.example/result")) respEx).2 = 10 ∧
     countExtracts (analyzeDocument "application/pdf" exApiKey
        "https://x.cognitiveservices.azure.com"
        (SubmitResponse.ok (some "https://op.example/result")) respEx).2 = 1) ∧
    (analyzeDocument "application/pdf" exApiKey
        "https://x.cognitiveservices.azure.com"
        (SubmitResponse.ok (some "https://op.example/result")) respRunning =
      (AnalyzeOutcome.err timeoutMsg, Event.submit :: pollTraceFrom 0 maxAttempts) ∧
     countExtracts (analyzeDocument "application/pdf" exApiKey
        "https://x.cognitiveservices.azure.com"
        (SubmitResponse.ok (some "https://op.example/result")) respRunning).2 = 0) := by
  constructor
  · exact (C1_analyzeDocument_polling "application/pdf" exApiKey
      "https://x.cognitiveservices.azure.com" "https://op.example/result" respEx
      (by decide) (by decide)
      ⟨"https://x.cognitiveservices.azure.com", rfl⟩).2.1
      10 emptyDoc "" (by decide) (by decide)
      (fun i hi1 hi2 => by
        have hle : i ≤ 9 := by omega
        exact ⟨"running", emptyDoc, "", by simp [respEx, hle], by decide, by decide⟩)
      (by
        have : ¬(10 ≤ 9) := by decide
        simp [respEx, this])
  · exact (C1_analyzeDocument_polling "application/pdf" exApiKey
      "https://x.cognitiveservices.azure.com" "https://op.example/result" respRunning
      (by decide) (by decide)
      ⟨"https://x.cognitiveservices.azure.com", rfl⟩).2.2
      (fun i hi1 hi2 =>
        ⟨"running", emptyDoc, "", rfl, by decide, by decide⟩)

/-- Claim C5: when file-type validation or API-key validation fails,
`analyzeDocument` fails with the corresponding error before any network
request — its event trace is empty. -/
theorem C5_validation_before_network
    (fileType apiKey endpoint : String) (submit : SubmitResponse)
    (resp : Nat → PollResponse) :
    (validateFileType fileType = false →
      analyzeDocument fileType apiKey endpoint submit resp =
        (AnalyzeOutcome.err unsupportedFileTypeMsg, [])) ∧
    (validateFileType fileType = true → validateApiKey apiKey = false →
      analyzeDocument fileType apiKey endpoint submit resp =
        (AnalyzeOutcome.err invalidApiKeyMsg, [])) := by
  constructor
  · intro h
    simp [analyzeDocument, h]
  · intro h1 h2
    simp [analyzeDocument, h1, h2]

/-- Witness for C5: an unsupported MIME type and a malformed API key
each fail with an empty trace. -/
theorem C5_witness :
    analyzeDocument "text/plain" exApiKey "https://x.cognitiveservices.azure.com"
        (SubmitResponse.ok none) respRunning =
      (AnalyzeOutcome.err unsupportedFileTypeMsg, []) ∧
    analyzeDocument "application/pdf" "short" "https://x.cognitiveservices.azure.com"
        (SubmitResponse.ok none) respRunning =
      (AnalyzeOutcome.err invalidApiKeyMsg, []) :=
  ⟨(C5_validation_before_network "text/plain" exApiKey
      "https://x.cognitiveservices.azure.com" (SubmitResponse.ok none)
      respRunning).1 (by decide),
   (C5_validation_before_network "application/pdf" "short"
      "https://x.cognitiveservices.azure.com" (SubmitResponse.ok none)
      respRunning).2 (by decide) (by decide)⟩

/-- Witness for C3: each branch of the priority chain at a concrete
response — 401 wins over a structured body, and a 500 exercises the
code/message, string, stringified, fallback and catch branches. -/
theorem C3_witness :
    extractAzureErrorInfo ⟨401, "Unauthorized"⟩
        (some (ErrVal.obj [("code", "X"), ("message", "Y")] true)) = authFailMsg ∧
    extractAzureErrorInfo ⟨500, "Internal Server Error"⟩
        (some (ErrVal.obj [("code", "X"), ("message", "Y")] true)) =
      "Azure APIエラー (" ++ "X" ++ "): " ++ "Y" ∧
    extractAzureErrorInfo ⟨500, "Internal Server Error"⟩
        (some (ErrVal.str "boom")) = "Azure APIエラー: " ++ "boom" ∧
    extractAzureErrorInfo ⟨500, "Internal Server Error"⟩
        (some (ErrVal.obj [("detail", "D")] true)) =
      "Azure APIエラー: " ++ stringifyObj [("detail", "D")] ∧
    extractAzureErrorInfo ⟨500, "Internal Server Error"⟩ none =
      "Azure APIエラー (" ++ toString 500 ++ "): " ++ "Internal Server Error" ∧
    extractAzureErrorInfo ⟨500, "Internal Server Error"⟩
        (some (ErrVal.obj [("detail", "D")] false)) =
      "Azure APIエラー (" ++ toString 500 ++ ")" := by
  refine ⟨C3_extractAzureErrorInfo_priority.1 "Unauthorized" _, ?_, ?_, ?_, ?_, ?_⟩
  · exact C3_extractAzureErrorInfo_priority.2.2.2.2.1 500 "Internal Server Error"
      [("code", "X"), ("message", "Y")] true "X" "Y" (by decide) (by decide) (by decide)
  · exact C3_extractAzureErrorInfo_priority.2.2.2.2.2.1 500 "Internal Server Error"
      "boom" (by decide) (by decide)
  · exact C3_extractAzureErrorInfo_priority.2.2.2.2.2.2.1 500 "Internal Server Error"
      [("detail", "D")] (by decide) (Or.inl (by decide))
  · exact C3_extractAzureErrorInfo_priority.2.2.2.2.2.2.2.1 500 "Internal Server Error"
      (by decide)
  · exact C3_extractAzureErrorInfo_priority.2.2.2.2.2.2.2.2.2 500 "Internal Server Error"
      [("detail", "D")] (by decide) (Or.inl (by decide))

/-- Witness for C6: the spec's three concrete cases — trailing slash
stripped, empty input rejected, non-URL input rejected. -/
theorem C6_witness :
    (normalizeAzureEndpoint "https://x.cognitiveservices.azure.com/").result =
      Except.ok "https://x.cognitiveservices.azure.com" ∧
    (∃ e, (normalizeAzureEndpoint "").result = Except.error e) ∧
    (∃ e, (normalizeAzureEndpoint "not a url").result = Except.error e) := by
  refine ⟨?_, ?_, ?_⟩
  · have h := (C6_normalizeAzureEndpoint "https://x.cognitiveservices.azure.com/").2.1
      (by decide) (by decide)
    rw [h]
    have h2 : stripTrailingSlash "https://x.cognitiveservices.azure.com/" =
        "https://x.cognitiveservices.azure.com" := by decide
    rw [h2]
  · exact (C6_normalizeAzureEndpoint "").1.mpr (Or.inl rfl)
  · exact (C6_normalizeAzureEndpoint "not a url").1.mpr (Or.inr (by decide))

end Qscan
